import Mathlib

/-!
Verification of the VRC-OSC-Alarm engine and frontend.

The repository snapshot contains the React frontend in two revisions
(`src/src/App.tsx` and `src/unnamed/part_000`); the Rust backend (parameter
mapper, alarm state machine, scheduler, sync coordinator, engine facade) is
not part of the snapshot, so those components are modelled from the spec.
Wire floats are modelled as rationals, timestamps as integers (milliseconds)
for the frontend and naturals (minutes) for the engine.
-/

/-- The `AppState` interface shared by both frontend revisions
(`src/src/App.tsx` lines 8-21 and `src/unnamed/part_000` lines 8-21).
The `last_osc_received` / `last_osc_sent` fields are nullable timestamp
strings in the source; they are modelled as the parsed epoch-millisecond
value (`new Date(s).getTime()`), `none` standing for `null`. -/
structure AppState where
  last_osc_received : Option Int
  last_osc_sent : Option Int
  alarm_set_hour : Int
  alarm_set_minute : Int
  alarm_is_on : Bool
  snooze_pressed : Bool
  stop_pressed : Bool
  is_ringing : Bool
  snooze_count : Int
  max_snoozes : Int
  ringing_duration_minutes : Int
  snooze_duration_minutes : Int

/-- `getConnectionStatus` from `src/src/App.tsx` lines 133-138: `Disconnected`
when the app state is unavailable or `last_osc_received` is null, otherwise
`Connected` exactly when `Date.now() - lastReceived.getTime() < 10000`. -/
def AppTsx.getConnectionStatus (appState : Option AppState) (now : Int) : String :=
  match appState with
  | none => "Disconnected"
  | some s =>
    match s.last_osc_received with
    | none => "Disconnected"
    | some lastReceived => if now - lastReceived < 10000 then "Connected" else "Disconnected"

/-- `getConnectionStatus` from `src/unnamed/part_000` lines 207-212: identical
to the `App.tsx` revision except the liveness window is `60000` ms. -/
def Part000.getConnectionStatus (appState : Option AppState) (now : Int) : String :=
  match appState with
  | none => "Disconnected"
  | some s =>
    match s.last_osc_received with
    | none => "Disconnected"
    | some lastReceived => if now - lastReceived < 60000 then "Connected" else "Disconnected"

/-- JavaScript `String.prototype.padStart(targetLength, pad)` specialised to a
one-character pad string, as used with `"0"` in both frontend revisions:
prepend copies of the pad character until the length reaches `targetLength`
(a no-op when the string is already long enough). -/
def padStart (s : String) (targetLength : Nat) (padChar : Char) : String :=
  String.mk (List.replicate (targetLength - s.length) padChar) ++ s

/-- `formatTime` from `src/src/App.tsx` lines 121-123 and (identically)
`src/unnamed/part_000` lines 195-197:
`hour.toString().padStart(2, "0") + ":" + minute.toString().padStart(2, "0")`. -/
def formatTime (hour minute : Nat) : String :=
  padStart (Nat.repr hour) 2 '0' ++ ":" ++ padStart (Nat.repr minute) 2 '0'

/-- Modelled from the spec: the alarm phases of the state machine (§3, §4.3);
the Rust backend that owns them is not in the repository snapshot. -/
inductive AlarmPhase
  | Off
  | Waiting
  | Ringing
  | Snoozed
  | Stopped
deriving DecidableEq, Repr

/-- Modelled from the spec: `AlarmSettings = {hour: 0..23, minute: 0..59,
enabled: bool}` (§3). Hour and minute are integers so that out-of-range
requests to the facade can be represented (§4.6). -/
structure AlarmSettings where
  hour : Int
  minute : Int
  enabled : Bool
deriving DecidableEq, Repr

/-- Modelled from the spec: `TimerPolicy` (§3), consulted by the scheduler and
the state machine. -/
structure TimerPolicy where
  maxSnoozes : Nat
  ringingDurationMinutes : Nat
  snoozeDurationMinutes : Nat
deriving DecidableEq, Repr

/-- Modelled from the spec: outbound OSC parameter messages of the namespace
in §6 (`AlarmShouldFire`, `AlarmSetHour`, `AlarmSetMinute`, `AlarmIsOn`),
carrying the normalized wire value. -/
inductive OutMsg
  | alarmShouldFire (b : Bool)
  | setHour (wire : ℚ)
  | setMinute (wire : ℚ)
  | alarmIsOn (b : Bool)
deriving DecidableEq, Repr

/-- Modelled from the spec: `ValidationError::OutOfRange` (§4.6, §7). -/
inductive ValidationError
  | OutOfRange
deriving DecidableEq, Repr

/-- Modelled from the spec: Parameter Mapper hour encoding
`wire = domain / 23.0` (§4.2); the mapper lives in the absent Rust backend.
Wire floats are modelled as rationals. -/
def encodeHour (domain : Int) : ℚ := (domain : ℚ) / 23

/-- Modelled from the spec: Parameter Mapper minute encoding
`wire = domain / 59.0` (§4.2). -/
def encodeMinute (domain : Int) : ℚ := (domain : ℚ) / 59

/-- Modelled from the spec: the unclamped hour decoding
`domain = round(wire * 23.0)` (§4.2). -/
def decodeHourRaw (wire : ℚ) : ℤ := round (wire * 23)

/-- Modelled from the spec: the unclamped minute decoding
`domain = round(wire * 59.0)` (§4.2). -/
def decodeMinuteRaw (wire : ℚ) : ℤ := round (wire * 59)

/-- Modelled from the spec: hour decoding with clamping to the legal range
`0..23` (§4.2: out-of-range input is clamped, not rejected). -/
def decodeHour (wire : ℚ) : Int := min 23 (max 0 (decodeHourRaw wire))

/-- Modelled from the spec: minute decoding with clamping to the legal range
`0..59` (§4.2). -/
def decodeMinute (wire : ℚ) : Int := min 59 (max 0 (decodeMinuteRaw wire))

/-- Modelled from the spec: the engine-side state owned by the single logical
owner of `AlarmSettings`/`RuntimeState` (§3, §5): settings, immutable timer
policy, the current alarm phase and snooze count, the pending
next-fire/snooze-wake deadline of the scheduler (§4.5, in minutes of wall
clock), and the receive timestamp used for liveness. -/
structure Engine where
  settings : AlarmSettings
  policy : TimerPolicy
  phase : AlarmPhase
  snoozeCount : Nat
  nextFireAt : Option Nat
  lastReceivedAt : Option Nat
deriving DecidableEq, Repr

/-- Modelled from the spec: the Scheduler's next-fire computation (§4.5):
using the current local wall-clock date (time in minutes, days of 1440
minutes), today's date at `hour:minute` if that instant is still in the
future, otherwise the same time the next day. -/
def computeNextFire (s : AlarmSettings) (now : Nat) : Nat :=
  let hm := s.hour.toNat * 60 + s.minute.toNat
  let target := now / 1440 * 1440 + hm
  if now < target then target else target + 1440

/-- Modelled from the spec: the triggers that drive the alarm state machine
(§4.3): toggling `enabled`, the scheduler tick (which fires a due next-fire or
snooze-wake deadline), snooze/stop requests, the ringing-duration timeout, and
the automatic `Stopped → Waiting` advance. -/
inductive Trigger
  | setEnabled (b : Bool)
  | tick
  | requestSnooze
  | requestStop
  | ringingTimeout
  | advance
deriving DecidableEq, Repr

/-- Modelled from the spec: the transition table of the Alarm State Machine
(§4.3), executed by the absent Rust backend. `now` is the wall clock in
minutes; entering `Waiting` from a state other than `Snoozed` resets
`snoozeCount` (§3); `enabled=false` from any phase goes to `Off`, sends
`AlarmShouldFire=false` and cancels pending timers; a snooze while `Ringing`
with `snoozeCount < maxSnoozes` increments the count and schedules the wake at
`now + snoozeDurationMinutes`, and with the cap reached forces `Stopped`;
duplicate triggers of an already-taken transition are no-ops. -/
def engineStep (e : Engine) (now : Nat) (t : Trigger) : Engine × List OutMsg :=
  match t with
  | .setEnabled false =>
    ({ e with settings := { e.settings with enabled := false },
              phase := .Off, nextFireAt := none },
     [.alarmShouldFire false])
  | .setEnabled true =>
    match e.phase with
    | .Off =>
      ({ e with settings := { e.settings with enabled := true },
                phase := .Waiting, snoozeCount := 0,
                nextFireAt := some (computeNextFire e.settings now) }, [])
    | _ => ({ e with settings := { e.settings with enabled := true } }, [])
  | .tick =>
    match e.phase, e.nextFireAt with
    | .Waiting, some d =>
      if d ≤ now then
        ({ e with phase := .Ringing, nextFireAt := none }, [.alarmShouldFire true])
      else (e, [])
    | .Snoozed, some d =>
      if d ≤ now then
        ({ e with phase := .Ringing, nextFireAt := none }, [.alarmShouldFire true])
      else (e, [])
    | _, _ => (e, [])
  | .requestSnooze =>
    match e.phase with
    | .Ringing =>
      if e.snoozeCount < e.policy.maxSnoozes then
        ({ e with phase := .Snoozed, snoozeCount := e.snoozeCount + 1,
                  nextFireAt := some (now + e.policy.snoozeDurationMinutes) }, [])
      else
        ({ e with phase := .Stopped, nextFireAt := none }, [.alarmShouldFire false])
    | _ => (e, [])
  | .requestStop =>
    match e.phase with
    | .Ringing => ({ e with phase := .Stopped, nextFireAt := none }, [.alarmShouldFire false])
    | .Snoozed => ({ e with phase := .Stopped, nextFireAt := none }, [.alarmShouldFire false])
    | _ => (e, [])
  | .ringingTimeout =>
    match e.phase with
    | .Ringing => ({ e with phase := .Stopped, nextFireAt := none }, [.alarmShouldFire false])
    | _ => (e, [])
  | .advance =>
    match e.phase with
    | .Stopped =>
      ({ e with phase := .Waiting, snoozeCount := 0,
                nextFireAt := some (computeNextFire e.settings now) }, [])
    | _ => (e, [])

/-- Modelled from the spec: running the state machine over a sequence of
timestamped triggers (the serialized message stream of §5). -/
def runEngine (e : Engine) : List (Nat × Trigger) → Engine
  | [] => e
  | (now, t) :: rest => runEngine (engineStep e now t).1 rest

/-- Modelled from the spec: the Sync Coordinator's inbound path for
`AlarmSetHour` (§4.4): the decoded (clamped) value is applied immediately,
`lastReceivedAt` is updated on every valid receipt, and if re-encoding the
stored value differs from the received wire value the clamped value is
immediately re-encoded and re-sent so both ends converge. -/
def handleInboundHour (e : Engine) (now : Nat) (wire : ℚ) : Engine × List OutMsg :=
  let d := decodeHour wire
  let echo := encodeHour d
  ({ e with settings := { e.settings with hour := d }, lastReceivedAt := some now },
   if echo = wire then [] else [.setHour echo])

/-- Modelled from the spec: the Sync Coordinator's inbound path for
`AlarmSetMinute` (§4.4), analogous to the hour path. -/
def handleInboundMinute (e : Engine) (now : Nat) (wire : ℚ) : Engine × List OutMsg :=
  let d := decodeMinute wire
  let echo := encodeMinute d
  ({ e with settings := { e.settings with minute := d }, lastReceivedAt := some now },
   if echo = wire then [] else [.setMinute echo])

/-- Modelled from the spec: the Engine Facade's `setSettings` (§4.6): ranges
(hour 0–23, minute 0–59) are validated before mutating; an out-of-range
request fails with `ValidationError::OutOfRange` and leaves the whole engine
state unchanged, an in-range request replaces the settings atomically. -/
def setSettings (e : Engine) (s : AlarmSettings) : Option ValidationError × Engine :=
  if 0 ≤ s.hour ∧ s.hour ≤ 23 ∧ 0 ≤ s.minute ∧ s.minute ≤ 59 then
    (none, { e with settings := s })
  else
    (some .OutOfRange, e)

/-- A concrete engine state used by the witness theorems: ringing, snooze
count 0, policy `maxSnoozes = 2`. -/
def sampleRinging : Engine :=
  { settings := { hour := 7, minute := 0, enabled := true },
    policy := { maxSnoozes := 2, ringingDurationMinutes := 15, snoozeDurationMinutes := 9 },
    phase := .Ringing, snoozeCount := 0, nextFireAt := none, lastReceivedAt := none }

/-- A concrete stopped engine state used by the witness theorems. -/
def sampleStopped : Engine :=
  { settings := { hour := 7, minute := 0, enabled := true },
    policy := { maxSnoozes := 2, ringingDurationMinutes := 15, snoozeDurationMinutes := 9 },
    phase := .Stopped, snoozeCount := 2, nextFireAt := none, lastReceivedAt := none }

/-- A concrete waiting engine state with a stale (past) deadline, used by the
witness theorems for the wall-clock-jump behaviour. -/
def sampleWaitingStale : Engine :=
  { settings := { hour := 7, minute := 0, enabled := true },
    policy := { maxSnoozes := 2, ringingDurationMinutes := 15, snoozeDurationMinutes := 9 },
    phase := .Waiting, snoozeCount := 0, nextFireAt := some 420, lastReceivedAt := none }

/-- A concrete frontend app state whose last OSC receipt is at epoch 0, used
by the connection-status theorems. -/
def sampleAppState : AppState :=
  { last_osc_received := some 0, last_osc_sent := none,
    alarm_set_hour := 7, alarm_set_minute := 0, alarm_is_on := false,
    snooze_pressed := false, stop_pressed := false, is_ringing := false,
    snooze_count := 0, max_snoozes := 5,
    ringing_duration_minutes := 15, snooze_duration_minutes := 9 }

lemma pad2_repr_length : ∀ n : Nat, n < 100 → (padStart (Nat.repr n) 2 '0').length = 2 := by
  decide

/-- C10: for all non-negative integers `hour < 100` and `minute < 100`,
`formatTime` returns the decimal representations of hour and minute, each
left-padded with `'0'` to exactly two characters and joined by `':'`, so the
result is a 5-character string; in particular `formatTime 7 0 = "07:00"`. -/
theorem formatTime_two_digit_padded : ∀ h m : Nat, h < 100 → m < 100 →
    (formatTime h m).length = 5 ∧
    (∃ a b : String, a = padStart (Nat.repr h) 2 '0' ∧ b = padStart (Nat.repr m) 2 '0' ∧
      formatTime h m = a ++ ":" ++ b ∧ a.length = 2 ∧ b.length = 2) ∧
    formatTime 7 0 = "07:00" := by
  intro h m hh hm
  have ha := pad2_repr_length h hh
  have hb := pad2_repr_length m hm
  refine ⟨?_, ⟨_, _, rfl, rfl, rfl, ha, hb⟩, by decide⟩
  have hc : (":" : String).length = 1 := by decide
  simp [formatTime, String.length_append, ha, hb, hc]

/-- Witness for C10 at `hour = 7`, `minute = 0`. -/
theorem formatTime_two_digit_padded_witness :
    (7 : Nat) < 100 ∧ (0 : Nat) < 100 ∧ (formatTime 7 0).length = 5 ∧ formatTime 7 0 = "07:00" :=
  ⟨by decide, by decide,
   (formatTime_two_digit_padded 7 0 (by decide) (by decide)).1,
   (formatTime_two_digit_padded 7 0 (by decide) (by decide)).2.2⟩

/-- C9 counterexample: the two revisions of `getConnectionStatus` are not
extensionally equal; at a state whose last OSC receipt is at epoch 0 and
current time 30000 ms, the `App.tsx` revision (10 s window) says
`Disconnected` while the `part_000` revision (60 s window) says `Connected`. -/
theorem connection_status_revisions_differ :
    AppTsx.getConnectionStatus (some sampleAppState) 30000 ≠
      Part000.getConnectionStatus (some sampleAppState) 30000 := by
  decide

/-- C9 (amended): the two revisions of `getConnectionStatus` agree on a state
and time exactly when the age of the last receipt does not lie in
`[10000, 60000)` ms (in particular they agree whenever no datagram was ever
received); they are not extensionally equal. -/
theorem connection_status_agreement : ∀ (st : Option AppState) (now : Int),
    AppTsx.getConnectionStatus st now = Part000.getConnectionStatus st now ↔
      ¬ ∃ s t, st = some s ∧ s.last_osc_received = some t ∧
        10000 ≤ now - t ∧ now - t < 60000 := by
  intro st now
  cases st with
  | none => simp [AppTsx.getConnectionStatus, Part000.getConnectionStatus]
  | some s =>
    cases hrec : s.last_osc_received with
    | none => simp [AppTsx.getConnectionStatus, Part000.getConnectionStatus, hrec]
    | some t =>
      simp only [AppTsx.getConnectionStatus, Part000.getConnectionStatus, hrec,
        Option.some.injEq]
      split_ifs with h1 h2 h2 <;> simp_all
      omega

/-- C7: for both frontend revisions the connection status is a derived fact:
the result is always `"Connected"` or `"Disconnected"`, and it is
`"Connected"` exactly when a last receipt exists and its age `now - t` is
strictly below the revision's fixed liveness window (10000 ms in `App.tsx`,
60000 ms in `part_000`); with no receipt the status is `"Disconnected"`. -/
theorem connection_liveness_derived : ∀ (st : Option AppState) (now : Int),
    (AppTsx.getConnectionStatus st now = "Connected" ∨
      AppTsx.getConnectionStatus st now = "Disconnected") ∧
    (Part000.getConnectionStatus st now = "Connected" ∨
      Part000.getConnectionStatus st now = "Disconnected") ∧
    (AppTsx.getConnectionStatus st now = "Connected" ↔
      ∃ s t, st = some s ∧ s.last_osc_received = some t ∧ now - t < 10000) ∧
    (Part000.getConnectionStatus st now = "Connected" ↔
      ∃ s t, st = some s ∧ s.last_osc_received = some t ∧ now - t < 60000) := by
  intro st now
  cases st with
  | none => simp [AppTsx.getConnectionStatus, Part000.getConnectionStatus]
  | some s =>
    cases hrec : s.last_osc_received with
    | none => simp [AppTsx.getConnectionStatus, Part000.getConnectionStatus, hrec]
    | some t =>
      simp only [AppTsx.getConnectionStatus, Part000.getConnectionStatus, hrec,
        Option.some.injEq]
      constructor
      · split_ifs <;> simp
      constructor
      · split_ifs <;> simp
      constructor
      · split_ifs with h <;> simp_all
      · split_ifs with h <;> simp_all

lemma round_le_round {x y : ℚ} (h : x ≤ y) : round x ≤ round y := by
  rw [round_eq, round_eq]
  exact Int.floor_le_floor (by linarith)

lemma decodeHour_of_neg {w : ℚ} (h : w < 0) : decodeHour w = 0 := by
  have hr : decodeHourRaw w ≤ 0 := by
    have : round (w * 23) ≤ round (0 : ℚ) := round_le_round (by nlinarith)
    simpa [decodeHourRaw, round_zero] using this
  simp only [decodeHour]
  omega

lemma decodeHour_of_gt_one {w : ℚ} (h : 1 < w) : decodeHour w = 23 := by
  have hr : (23 : ℤ) ≤ decodeHourRaw w := by
    have h23 : round ((23 : ℚ)) ≤ round (w * 23) := round_le_round (by nlinarith)
    simpa [decodeHourRaw, round_ofNat] using h23
  simp only [decodeHour]
  omega

lemma decodeMinute_of_neg {w : ℚ} (h : w < 0) : decodeMinute w = 0 := by
  have hr : decodeMinuteRaw w ≤ 0 := by
    have : round (w * 59) ≤ round (0 : ℚ) := round_le_round (by nlinarith)
    simpa [decodeMinuteRaw, round_zero] using this
  simp only [decodeMinute]
  omega

lemma decodeMinute_of_gt_one {w : ℚ} (h : 1 < w) : decodeMinute w = 59 := by
  have hr : (59 : ℤ) ≤ decodeMinuteRaw w := by
    have h59 : round ((59 : ℚ)) ≤ round (w * 59) := round_le_round (by nlinarith)
    simpa [decodeMinuteRaw, round_ofNat] using h59
  simp only [decodeMinute]
  omega

/-- C3: the hour mapper round-trips on every legal domain value `0..23`
(`round((d/23)*23) = d` after clamping), and the minute mapper round-trips on
every legal domain value `0..59`. -/
theorem mapper_roundtrip :
    (∀ d : Int, 0 ≤ d → d ≤ 23 → decodeHour (encodeHour d) = d) ∧
    (∀ d : Int, 0 ≤ d → d ≤ 59 → decodeMinute (encodeMinute d) = d) := by
  constructor
  · intro d hd0 hd23
    have h1 : ((d : ℚ) / 23) * 23 = (d : ℚ) := div_mul_cancel₀ _ (by norm_num)
    simp only [decodeHour, decodeHourRaw, encodeHour, h1, round_intCast]
    omega
  · intro d hd0 hd59
    have h1 : ((d : ℚ) / 59) * 59 = (d : ℚ) := div_mul_cancel₀ _ (by norm_num)
    simp only [decodeMinute, decodeMinuteRaw, encodeMinute, h1, round_intCast]
    omega

/-- Witness for C3 at hour domain 7 and minute domain 30. -/
theorem mapper_roundtrip_witness :
    decodeHour (encodeHour 7) = 7 ∧ decodeMinute (encodeMinute 30) = 30 :=
  ⟨mapper_roundtrip.1 7 (by decide) (by decide),
   mapper_roundtrip.2 30 (by decide) (by decide)⟩

/-- C4: for every out-of-range inbound wire float (`w < 0` or `w > 1`) on
`AlarmSetHour` or `AlarmSetMinute`, the stored domain value is clamped to the
nearest legal value (0 or 23 for hour, 0 or 59 for minute) rather than
rejected, `lastReceivedAt` is updated, and the coordinator immediately
re-encodes and re-sends the clamped wire value (0 or 1) to the peer. -/
theorem inbound_clamp_and_echo :
    ∀ (e : Engine) (now : Nat) (w v : ℚ), (w < 0 ∨ 1 < w) → (v < 0 ∨ 1 < v) →
    (handleInboundHour e now w).1.settings.hour = (if w < 0 then 0 else 23) ∧
    (handleInboundHour e now w).2 = [OutMsg.setHour (if w < 0 then 0 else 1)] ∧
    (handleInboundHour e now w).1.lastReceivedAt = some now ∧
    (handleInboundMinute e now v).1.settings.minute = (if v < 0 then 0 else 59) ∧
    (handleInboundMinute e now v).2 = [OutMsg.setMinute (if v < 0 then 0 else 1)] := by
  intro e now w v hw hv
  have hhour : (handleInboundHour e now w).1.settings.hour = (if w < 0 then 0 else 23) ∧
      (handleInboundHour e now w).2 = [OutMsg.setHour (if w < 0 then 0 else 1)] := by
    rcases hw with h | h
    · have hd : decodeHour w = 0 := decodeHour_of_neg h
      have he : encodeHour 0 = 0 := by norm_num [encodeHour]
      have hne : encodeHour (decodeHour w) ≠ w := by rw [hd, he]; exact fun hc => absurd hc.symm (ne_of_lt h)
      simp only [handleInboundHour, hd, he, if_pos h]
      exact ⟨trivial, by simp [if_neg (ne_of_gt h)]⟩
    · have hd : decodeHour w = 23 := decodeHour_of_gt_one h
      have he : encodeHour 23 = 1 := by norm_num [encodeHour]
      have hne : encodeHour (decodeHour w) ≠ w := by
        rw [hd, he]; exact fun hc => absurd hc (ne_of_lt h)
      have hnlt : ¬ w < 0 := by linarith
      simp only [handleInboundHour, hd, he, if_neg hnlt]
      exact ⟨trivial, by simp [if_neg (ne_of_lt h)]⟩
  have hmin : (handleInboundMinute e now v).1.settings.minute = (if v < 0 then 0 else 59) ∧
      (handleInboundMinute e now v).2 = [OutMsg.setMinute (if v < 0 then 0 else 1)] := by
    rcases hv with h | h
    · have hd : decodeMinute v = 0 := decodeMinute_of_neg h
      have he : encodeMinute 0 = 0 := by norm_num [encodeMinute]
      have hne : encodeMinute (decodeMinute v) ≠ v := by
        rw [hd, he]; exact fun hc => absurd hc.symm (ne_of_lt h)
      simp only [handleInboundMinute, hd, he, if_pos h]
      exact ⟨trivial, by simp [if_neg (ne_of_gt h)]⟩
    · have hd : decodeMinute v = 59 := decodeMinute_of_gt_one h
      have he : encodeMinute 59 = 1 := by norm_num [encodeMinute]
      have hne : encodeMinute (decodeMinute v) ≠ v := by
        rw [hd, he]; exact fun hc => absurd hc (ne_of_lt h)
      have hnlt : ¬ v < 0 := by linarith
      simp only [handleInboundMinute, hd, he, if_neg hnlt]
      exact ⟨trivial, by simp [if_neg (ne_of_lt h)]⟩
  refine ⟨hhour.1, hhour.2, ?_, hmin.1, hmin.2⟩
  simp [handleInboundHour]

/-- Witness for C4: inbound `AlarmSetHour = 2` (out of range high) on the
sample engine stores hour 23 and echoes wire 1; inbound `AlarmSetMinute = -1`
stores minute 0 and echoes wire 0. -/
theorem inbound_clamp_and_echo_witness :
    (handleInboundHour sampleRinging 5 2).1.settings.hour = 23 ∧
    (handleInboundHour sampleRinging 5 2).2 = [OutMsg.setHour 1] ∧
    (handleInboundMinute sampleRinging 5 (-1)).1.settings.minute = 0 ∧
    (handleInboundMinute sampleRinging 5 (-1)).2 = [OutMsg.setMinute 0] := by
  have h := inbound_clamp_and_echo sampleRinging 5 2 (-1)
    (Or.inr (by decide)) (Or.inl (by decide))
  have h2 : ¬ ((2 : ℚ) < 0) := by decide
  have hm : ((-1 : ℚ) < 0) := by decide
  refine ⟨?_, ?_, ?_, ?_⟩
  · have := h.1; rwa [if_neg h2] at this
  · have := h.2.1; rwa [if_neg h2] at this
  · have := h.2.2.2.1; rwa [if_pos hm] at this
  · have := h.2.2.2.2; rwa [if_pos hm] at this

lemma engineStep_policy (e : Engine) (now : Nat) (t : Trigger) :
    (engineStep e now t).1.policy = e.policy := by
  unfold engineStep
  repeat' split
  all_goals rfl

lemma engineStep_snoozeCount_le (e : Engine) (now : Nat) (t : Trigger)
    (h : e.snoozeCount ≤ e.policy.maxSnoozes) :
    (engineStep e now t).1.snoozeCount ≤ (engineStep e now t).1.policy.maxSnoozes := by
  unfold engineStep
  repeat' split
  all_goals simp_all
  all_goals omega

lemma runEngine_snooze_le : ∀ (evs : List (Nat × Trigger)) (e : Engine),
    e.snoozeCount ≤ e.policy.maxSnoozes →
    (runEngine e evs).snoozeCount ≤ (runEngine e evs).policy.maxSnoozes := by
  intro evs
  induction evs with
  | nil => intro e h; exact h
  | cons p rest ih =>
    intro e h
    exact ih _ (engineStep_snoozeCount_le e p.1 p.2 h)

lemma engineStep_disabled_off (e : Engine) (now : Nat) (t : Trigger)
    (h : e.settings.enabled = false → e.phase = .Off) :
    (engineStep e now t).1.settings.enabled = false → (engineStep e now t).1.phase = .Off := by
  unfold engineStep
  repeat' split
  all_goals intro hen
  all_goals simp_all

lemma runEngine_disabled_off : ∀ (evs : List (Nat × Trigger)) (e : Engine),
    (e.settings.enabled = false → e.phase = .Off) →
    (runEngine e evs).settings.enabled = false → (runEngine e evs).phase = .Off := by
  intro evs
  induction evs with
  | nil => intro e h; exact h
  | cons p rest ih =>
    intro e h
    exact ih _ (engineStep_disabled_off e p.1 p.2 h)

/-- C1: snooze counting is capped. From any state whose snooze count respects
the cap, every sequence of triggers keeps `snoozeCount ≤ maxSnoozes`; an
accepted snooze while `Ringing` with `snoozeCount < maxSnoozes` goes to
`Snoozed` and increments the count by exactly 1; and a snooze request while
`Ringing` with `snoozeCount ≥ maxSnoozes` forces the phase to `Stopped`
instead of `Snoozed`. -/
theorem snooze_cap (e : Engine) (hinv : e.snoozeCount ≤ e.policy.maxSnoozes) :
    (∀ evs : List (Nat × Trigger),
       (runEngine e evs).snoozeCount ≤ (runEngine e evs).policy.maxSnoozes) ∧
    (∀ now : Nat, e.phase = .Ringing → e.snoozeCount < e.policy.maxSnoozes →
       (engineStep e now .requestSnooze).1.phase = .Snoozed ∧
       (engineStep e now .requestSnooze).1.snoozeCount = e.snoozeCount + 1) ∧
    (∀ now : Nat, e.phase = .Ringing → e.policy.maxSnoozes ≤ e.snoozeCount →
       (engineStep e now .requestSnooze).1.phase = .Stopped ∧
       (engineStep e now .requestSnooze).2 = [OutMsg.alarmShouldFire false]) := by
  refine ⟨fun evs => runEngine_snooze_le evs e hinv, ?_, ?_⟩
  · intro now hph hlt
    simp [engineStep, hph, hlt]
  · intro now hph hge
    have hnlt : ¬ e.snoozeCount < e.policy.maxSnoozes := by omega
    simp [engineStep, hph, hnlt]

/-- Witness for C1 on the sample ringing engine (`maxSnoozes = 2`): the spec
scenario of three snooze requests interleaved with snooze wakes, ending with
the cap respected, plus the accepted-snooze step at count 0. -/
theorem snooze_cap_witness :
    sampleRinging.snoozeCount ≤ sampleRinging.policy.maxSnoozes ∧
    (runEngine sampleRinging
        [(0, .requestSnooze), (9, .tick), (9, .requestSnooze),
         (18, .tick), (18, .requestSnooze)]).snoozeCount ≤
      (runEngine sampleRinging
        [(0, .requestSnooze), (9, .tick), (9, .requestSnooze),
         (18, .tick), (18, .requestSnooze)]).policy.maxSnoozes ∧
    (engineStep sampleRinging 0 .requestSnooze).1.phase = .Snoozed :=
  ⟨by decide,
   (snooze_cap sampleRinging (by decide)).1
     [(0, .requestSnooze), (9, .tick), (9, .requestSnooze),
      (18, .tick), (18, .requestSnooze)],
   ((snooze_cap sampleRinging (by decide)).2.1 0 (by decide) (by decide)).1⟩

/-- C2: applying `enabled=false` from any phase moves the machine directly to
`Off`, records `enabled = false`, cancels the pending timer and emits
`AlarmShouldFire=false`; consequently, from any state satisfying the
"disabled implies Off" invariant, no run of the machine is ever in a ringing
or snoozed phase while `enabled` is false. -/
theorem disable_forces_off (e : Engine) (now : Nat) :
    (engineStep e now (.setEnabled false)).1.phase = .Off ∧
    (engineStep e now (.setEnabled false)).1.settings.enabled = false ∧
    (engineStep e now (.setEnabled false)).1.nextFireAt = none ∧
    (engineStep e now (.setEnabled false)).2 = [OutMsg.alarmShouldFire false] ∧
    ((e.settings.enabled = false → e.phase = .Off) →
      ∀ evs : List (Nat × Trigger),
        (runEngine e evs).settings.enabled = false → (runEngine e evs).phase = .Off) := by
  refine ⟨rfl, rfl, rfl, rfl, ?_⟩
  intro h evs
  exact runEngine_disabled_off evs e h

/-- Witness for C2: disabling the sample ringing engine (mid-ring) yields
`Off`, and running the disable event keeps the invariant. -/
theorem disable_forces_off_witness :
    (engineStep sampleRinging 0 (.setEnabled false)).1.phase = .Off ∧
    (engineStep sampleRinging 0 (.setEnabled false)).2 = [OutMsg.alarmShouldFire false] ∧
    ((runEngine sampleRinging [(0, .setEnabled false)]).settings.enabled = false →
      (runEngine sampleRinging [(0, .setEnabled false)]).phase = .Off) :=
  ⟨(disable_forces_off sampleRinging 0).1,
   (disable_forces_off sampleRinging 0).2.2.2.1,
   (disable_forces_off sampleRinging 0).2.2.2.2 (by decide) [(0, .setEnabled false)]⟩

/-- C5: the facade's `setSettings` rejects any request with hour outside
`0..23` or minute outside `0..59` with `ValidationError::OutOfRange`, leaving
the whole engine state (settings and runtime) unchanged, and accepts any
in-range request, replacing the settings atomically. -/
theorem setSettings_validates (e : Engine) (s : AlarmSettings) :
    ((s.hour < 0 ∨ 23 < s.hour ∨ s.minute < 0 ∨ 59 < s.minute) →
      setSettings e s = (some .OutOfRange, e)) ∧
    ((0 ≤ s.hour ∧ s.hour ≤ 23 ∧ 0 ≤ s.minute ∧ s.minute ≤ 59) →
      setSettings e s = (none, { e with settings := s })) := by
  constructor
  · intro h
    simp only [setSettings]
    rw [if_neg (by omega)]
  · intro h
    simp only [setSettings]
    rw [if_pos h]

/-- Witness for C5: hour 24 is rejected and leaves the sample engine intact,
while an in-range request succeeds and stores the new settings. -/
theorem setSettings_validates_witness :
    setSettings sampleRinging { hour := 24, minute := 0, enabled := true } =
      (some .OutOfRange, sampleRinging) ∧
    setSettings sampleRinging { hour := 6, minute := 30, enabled := false } =
      (none, { sampleRinging with settings := { hour := 6, minute := 30, enabled := false } }) :=
  ⟨(setSettings_validates sampleRinging { hour := 24, minute := 0, enabled := true }).1
     (by decide),
   (setSettings_validates sampleRinging { hour := 6, minute := 30, enabled := false }).2
     (by decide)⟩

/-- C6: `requestStop` is idempotent in the `Stopped` phase: a stop request on
a stopped engine returns the state completely unchanged and produces no
outbound message. -/
theorem stop_idempotent (e : Engine) (now : Nat) (h : e.phase = .Stopped) :
    engineStep e now .requestStop = (e, []) := by
  simp [engineStep, h]

/-- Witness for C6 on the sample stopped engine. -/
theorem stop_idempotent_witness :
    engineStep sampleStopped 0 .requestStop = (sampleStopped, []) :=
  stop_idempotent sampleStopped 0 (by decide)

/-- C8: the scheduler's next-fire time is strictly in the future, within one
day, and lands exactly on the configured `hour:minute` time of day (today if
still ahead, otherwise the next day); and whenever a previously computed
deadline lies in the past at tick time (e.g. after a wall-clock jump), the
engine fires immediately, moving `Waiting` to `Ringing` and emitting
`AlarmShouldFire=true`, rather than rescheduling for the next day. -/
theorem next_fire_and_wake (s : AlarmSettings) (now : Nat)
    (h0 : 0 ≤ s.hour) (h23 : s.hour ≤ 23) (m0 : 0 ≤ s.minute) (m59 : s.minute ≤ 59) :
    (now < computeNextFire s now ∧
     computeNextFire s now % 1440 = s.hour.toNat * 60 + s.minute.toNat ∧
     computeNextFire s now ≤ now + 1440) ∧
    (∀ (e : Engine) (t d : Nat), e.phase = .Waiting → e.nextFireAt = some d → d ≤ t →
       (engineStep e t .tick).1.phase = .Ringing ∧
       (engineStep e t .tick).2 = [OutMsg.alarmShouldFire true]) := by
  constructor
  · simp only [computeNextFire]
    split <;> omega
  · intro e t d hph hd hle
    simp [engineStep, hph, hd, hle]

/-- Witness for C8: at 01:40 (minute 100) with alarm 07:00 the next fire is
today (minute 420); on the sample waiting engine with stale deadline 420 a
tick at minute 10000 fires immediately. -/
theorem next_fire_and_wake_witness :
    (100 : Nat) < computeNextFire { hour := 7, minute := 0, enabled := true } 100 ∧
    computeNextFire { hour := 7, minute := 0, enabled := true } 100 ≤ 100 + 1440 ∧
    (engineStep sampleWaitingStale 10000 .tick).1.phase = .Ringing :=
  ⟨(next_fire_and_wake { hour := 7, minute := 0, enabled := true } 100
      (by decide) (by decide) (by decide) (by decide)).1.1,
   (next_fire_and_wake { hour := 7, minute := 0, enabled := true } 100
      (by decide) (by decide) (by decide) (by decide)).1.2.2,
   ((next_fire_and_wake { hour := 7, minute := 0, enabled := true } 100
      (by decide) (by decide) (by decide) (by decide)).2
      sampleWaitingStale 10000 420 (by decide) rfl (by decide)).1⟩
